import Mathlib

/-!
Verification of the invpa invoice-extraction pipeline (Go) against its
natural-language specification.  The Go sources are shallowly embedded:
pure functions become Lean functions, external OpenAI calls become
explicit `Except`-valued parameters (the outcome of the call), Go map
iteration becomes iteration over an association list, and Go slice
indexing (which panics when out of range) becomes an `Option`-valued
lookup where `none` marks the uncontrolled runtime fault.
-/

namespace Invpa

/-! ### Data model (invoice/models.go)

`Counterparty` and `Invoice` mirror the Go structs field for field.
Go `float64` amounts are modelled as `Rat`; no claim under verification
computes with the amounts, they are only carried around.  Go zero
values ("" and 0) are the default field values. -/

structure Counterparty where
  id : String := ""
  name : String := ""
  vat : String := ""
  country : String := ""
  address : String := ""
  swift : String := ""
  iban : String := ""
  phone : String := ""
  fax : String := ""
  email : String := ""
  website : String := ""
deriving Repr, DecidableEq

structure Invoice where
  type : Int := 0
  number : String := ""
  date : String := ""
  totalAmount : Rat := 0
  taxAmount : Rat := 0
  purpose : String := ""
  counterparty : Counterparty := {}
deriving Repr, DecidableEq

/-! ### Page selection (invoice/processor.go, selectPagesForAnalysis)

The Go function receives a slice of page indices.  When the slice has
more than 4 entries it sorts the CALLER's slice in place with
`sort.Ints`, collects the first two and last two sorted entries while
deduplicating through a `selected` set, sorts the collected result and
returns it; when the slice has at most 4 entries it returns the
argument slice itself, unsorted.  The in-place mutation is made
explicit by returning a pair: the first component is the final content
of the argument slice as seen by the caller, the second is the
returned slice. -/

def selectPagesForAnalysisFull (pageIndices : List Int) : List Int × List Int :=
  if pageIndices.length ≤ 4 then
    (pageIndices, pageIndices)
  else
    let sorted := pageIndices.insertionSort (· ≤ ·)
    let firstTwo := sorted.take 2
    let lastTwo := sorted.drop (sorted.length - 2)
    let result := (firstTwo ++ lastTwo).foldl
      (fun acc idx => if idx ∈ acc then acc else acc ++ [idx]) []
    (sorted, result.insertionSort (· ≤ ·))

/-- The value returned to the caller by `selectPagesForAnalysis`. -/
def selectPagesForAnalysis (pageIndices : List Int) : List Int :=
  (selectPagesForAnalysisFull pageIndices).2

/-- Claim C1 counterexample: for the two-element group `[1, 0]` the selector
returns the input unchanged, which is not the ascending sort of the input. -/
theorem selectPages_small_not_sorted_cex :
    selectPagesForAnalysis [1, 0] = [1, 0] ∧
      List.insertionSort (· ≤ ·) [(1 : Int), 0] = [0, 1] ∧
      selectPagesForAnalysis [1, 0] ≠ List.insertionSort (· ≤ ·) [(1 : Int), 0] := by
  refine ⟨rfl, by decide, by decide⟩

/-- Claim C1 (amended): for every page group with 4 or fewer page ordinals,
`selectPagesForAnalysis` returns all of them unchanged, in their original
order (ascending only when the input was already ascending). -/
theorem selectPages_small_id (pageIndices : List Int)
    (h : pageIndices.length ≤ 4) :
    selectPagesForAnalysis pageIndices = pageIndices := by
  simp [selectPagesForAnalysis, selectPagesForAnalysisFull, h]

/-- Witness for `selectPages_small_id` at the concrete group `[3, 1, 2]`. -/
theorem selectPages_small_id_witness :
    ([3, 1, 2] : List Int).length ≤ 4 ∧
      selectPagesForAnalysis [3, 1, 2] = [3, 1, 2] :=
  ⟨by decide, selectPages_small_id [3, 1, 2] (by decide)⟩

/-- Claim C2 counterexample: the group `[1, 1, 2, 3, 4, 5]` has 5 distinct
ordinals (more than 4), yet the selector returns only 3 elements, because
the duplicated lowest ordinal is deduplicated away. -/
theorem selectPages_dup_cex :
    selectPagesForAnalysis [1, 1, 2, 3, 4, 5] = [1, 4, 5] ∧
      (selectPagesForAnalysis [1, 1, 2, 3, 4, 5]).length ≠ 4 := by
  refine ⟨by decide, by decide⟩

/-- The accumulator fold used by `selectPagesForAnalysis` to deduplicate
(the Go `selected` set plus `result` slice) appends the remaining list
unchanged whenever the combined list has no duplicates. -/
lemma foldl_dedup_eq_append (u : List Int) : ∀ acc : List Int, (acc ++ u).Nodup →
    u.foldl (fun acc x => if x ∈ acc then acc else acc ++ [x]) acc = acc ++ u := by
  induction u with
  | nil => intro acc _; simp
  | cons x u ih =>
    intro acc h
    have hx : x ∉ acc := by
      rcases List.nodup_append.1 h with ⟨_, _, hdisj⟩
      exact fun hmem => hdisj hmem (List.mem_cons_self x u)
    have h' : ((acc ++ [x]) ++ u).Nodup := by
      rwa [List.append_cons] at h
    rw [List.foldl_cons, if_neg hx, ih (acc ++ [x]) h']
    simp

/-- The first two and last two entries of a list form a sublist of it,
provided the two windows do not overlap. -/
lemma take_two_append_drop_sublist (s : List Int) (h : 2 ≤ s.length - 2) :
    List.Sublist (s.take 2 ++ s.drop (s.length - 2)) s := by
  have htt : List.Sublist (s.take 2) (s.take (s.length - 2)) := by
    have : s.take 2 = (s.take (s.length - 2)).take 2 := by
      rw [List.take_take]
      congr 1
      omega
    rw [this]
    exact List.take_sublist 2 (s.take (s.length - 2))
  have key : List.Sublist (s.take 2 ++ s.drop (s.length - 2))
      (s.take (s.length - 2) ++ s.drop (s.length - 2)) :=
    List.Sublist.append htt (List.Sublist.refl _)
  rwa [List.take_append_drop] at key

/-- Claim C2 (amended): for every duplicate-free page group of more than 4
page ordinals, `selectPagesForAnalysis` returns exactly 4 elements, sorted
ascending, equal to the 2 lowest followed by the 2 highest ordinals of the
group (the first two and last two entries of the ascending sort). -/
theorem selectPages_large_two_lowest_two_highest (l : List Int)
    (hnd : l.Nodup) (hlen : 4 < l.length) :
    selectPagesForAnalysis l =
        (l.insertionSort (· ≤ ·)).take 2 ++
          (l.insertionSort (· ≤ ·)).drop (l.length - 2) ∧
      (selectPagesForAnalysis l).length = 4 ∧
      (selectPagesForAnalysis l).Sorted (· ≤ ·) := by
  set s := l.insertionSort (· ≤ ·) with hs
  have hperm : List.Perm s l := List.perm_insertionSort _ l
  have hlen_s : s.length = l.length := hperm.length_eq
  have hnd_s : s.Nodup := (hperm.nodup_iff).2 hnd
  have hsorted_s : s.Sorted (· ≤ ·) := List.sorted_insertionSort _ l
  have hsub : List.Sublist (s.take 2 ++ s.drop (s.length - 2)) s :=
    take_two_append_drop_sublist s (by omega)
  have hnd_u : (s.take 2 ++ s.drop (s.length - 2)).Nodup := hnd_s.sublist hsub
  have hsorted_u : (s.take 2 ++ s.drop (s.length - 2)).Sorted (· ≤ ·) :=
    List.Pairwise.sublist hsub hsorted_s
  have hsel : selectPagesForAnalysis l = s.take 2 ++ s.drop (s.length - 2) := by
    rw [selectPagesForAnalysis, selectPagesForAnalysisFull, if_neg (by omega)]
    simp only [← hs]
    rw [foldl_dedup_eq_append _ [] (by simpa using hnd_u)]
    simpa using hsorted_u.insertionSort_eq
  refine ⟨by rw [hsel, hlen_s], ?_, ?_⟩
  · rw [hsel]
    simp only [List.length_append, List.length_take, List.length_drop]
    omega
  · rw [hsel]
    exact hsorted_u

/-- Witness for `selectPages_large_two_lowest_two_highest` at the concrete
duplicate-free group `[4, 0, 3, 9, 7]`. -/
theorem selectPages_large_witness :
    ([4, 0, 3, 9, 7] : List Int).Nodup ∧ 4 < ([4, 0, 3, 9, 7] : List Int).length ∧
      (selectPagesForAnalysis [4, 0, 3, 9, 7] =
          (([4, 0, 3, 9, 7] : List Int).insertionSort (· ≤ ·)).take 2 ++
            (([4, 0, 3, 9, 7] : List Int).insertionSort (· ≤ ·)).drop
              (([4, 0, 3, 9, 7] : List Int).length - 2) ∧
        (selectPagesForAnalysis [4, 0, 3, 9, 7]).length = 4 ∧
        (selectPagesForAnalysis [4, 0, 3, 9, 7]).Sorted (· ≤ ·)) :=
  ⟨by decide, by decide,
    selectPages_large_two_lowest_two_highest [4, 0, 3, 9, 7] (by decide) (by decide)⟩

/-! ### Counterparty merging (invoice/processor.go, mergeCounterparties)

`merged` starts as a copy of `existing`; each optional field is then
overwritten from `newData` exactly when the copy's field is still empty
and `newData`'s field is non-empty.  `id`, `name`, `country`, `address`
are never touched. -/

def mergeCounterparties (existing newData : Counterparty) : Counterparty :=
  let merged := existing
  let merged := if merged.vat = "" ∧ newData.vat ≠ "" then
    { merged with vat := newData.vat } else merged
  let merged := if merged.swift = "" ∧ newData.swift ≠ "" then
    { merged with swift := newData.swift } else merged
  let merged := if merged.iban = "" ∧ newData.iban ≠ "" then
    { merged with iban := newData.iban } else merged
  let merged := if merged.phone = "" ∧ newData.phone ≠ "" then
    { merged with phone := newData.phone } else merged
  let merged := if merged.fax = "" ∧ newData.fax ≠ "" then
    { merged with fax := newData.fax } else merged
  let merged := if merged.email = "" ∧ newData.email ≠ "" then
    { merged with email := newData.email } else merged
  let merged := if merged.website = "" ∧ newData.website ≠ "" then
    { merged with website := newData.website } else merged
  merged

/-- Each field of the merge result, with the intermediate `merged` copies
normalised away: identity fields come from `existing`, every optional
field follows the guarded fill-from-`newData` rule of the source. -/
lemma mergeCounterparties_fields (existing newData : Counterparty) :
    mergeCounterparties existing newData =
      { existing with
          vat := if existing.vat = "" ∧ newData.vat ≠ "" then
            newData.vat else existing.vat
          swift := if existing.swift = "" ∧ newData.swift ≠ "" then
            newData.swift else existing.swift
          iban := if existing.iban = "" ∧ newData.iban ≠ "" then
            newData.iban else existing.iban
          phone := if existing.phone = "" ∧ newData.phone ≠ "" then
            newData.phone else existing.phone
          fax := if existing.fax = "" ∧ newData.fax ≠ "" then
            newData.fax else existing.fax
          email := if existing.email = "" ∧ newData.email ≠ "" then
            newData.email else existing.email
          website := if existing.website = "" ∧ newData.website ≠ "" then
            newData.website else existing.website } := by
  have mk_eq : ∀ x : Counterparty,
      x = ⟨x.id, x.name, x.vat, x.country, x.address, x.swift, x.iban,
        x.phone, x.fax, x.email, x.website⟩ := fun _ => rfl
  rw [mk_eq (mergeCounterparties existing newData)]
  simp only [mergeCounterparties,
    apply_ite Counterparty.id, apply_ite Counterparty.name,
    apply_ite Counterparty.country, apply_ite Counterparty.address,
    apply_ite Counterparty.vat, apply_ite Counterparty.swift,
    apply_ite Counterparty.iban, apply_ite Counterparty.phone,
    apply_ite Counterparty.fax, apply_ite Counterparty.email,
    apply_ite Counterparty.website, ite_self]

/-- Claim C4: the merge keeps `id`, `name`, `country`, `address` from the
existing entry, and each optional field equals the new entry's value when
the existing one is empty and the existing value otherwise. -/
theorem mergeCounterparties_preserves_and_fills (existing newData : Counterparty) :
    (mergeCounterparties existing newData).id = existing.id ∧
      (mergeCounterparties existing newData).name = existing.name ∧
      (mergeCounterparties existing newData).country = existing.country ∧
      (mergeCounterparties existing newData).address = existing.address ∧
      (mergeCounterparties existing newData).vat =
        (if existing.vat = "" then newData.vat else existing.vat) ∧
      (mergeCounterparties existing newData).swift =
        (if existing.swift = "" then newData.swift else existing.swift) ∧
      (mergeCounterparties existing newData).iban =
        (if existing.iban = "" then newData.iban else existing.iban) ∧
      (mergeCounterparties existing newData).phone =
        (if existing.phone = "" then newData.phone else existing.phone) ∧
      (mergeCounterparties existing newData).fax =
        (if existing.fax = "" then newData.fax else existing.fax) ∧
      (mergeCounterparties existing newData).email =
        (if existing.email = "" then newData.email else existing.email) ∧
      (mergeCounterparties existing newData).website =
        (if existing.website = "" then newData.website else existing.website) := by
  rw [mergeCounterparties_fields]
  refine ⟨rfl, rfl, rfl, rfl, ?_, ?_, ?_, ?_, ?_, ?_, ?_⟩ <;>
    · show (if _ ∧ _ then _ else _) = _
      split_ifs <;> simp_all

/-! ### Counterparty matching (invoice/processor.go, FindCounterparty)

The structured answer of the external matching call.  The Go code parses
the model output into `{match_found, matched_id}`. -/

structure MatchResponse where
  matchFound : Bool
  matchedId : String
deriving Repr, DecidableEq

/-- The ways `FindCounterparty` can fail.  `callFailed` covers a transport
error, an empty choice list and an unparseable response (everything before
a structured answer is available); `inconsistency` is the error built when
`match_found` is true but the returned id exists nowhere in the supplied
list. -/
inductive MatchError where
  | callFailed : String → MatchError
  | inconsistency : String → MatchError
deriving Repr, DecidableEq

/-- Shallow embedding of `FindCounterparty`.  The external call is
represented by its outcome `callResult`; the Go function issues the call
only after the empty-registry fast path, scans the registry for the first
entry whose id equals `matched_id`, merges on success and errors out when
the id is unknown.  `Except.ok none` plays the role of Go's `(nil, nil)`
"no match" return. -/
def FindCounterparty (existingCounterparties : List Counterparty)
    (newCounterparty : Counterparty)
    (callResult : Except String MatchResponse) :
    Except MatchError (Option Counterparty) :=
  if existingCounterparties.length = 0 then .ok none
  else
    match callResult with
    | .error e => .error (.callFailed e)
    | .ok response =>
      if response.matchFound then
        match existingCounterparties.find? (fun ex => ex.id = response.matchedId) with
        | some existing => .ok (some (mergeCounterparties existing newCounterparty))
        | none => .error (.inconsistency response.matchedId)
      else .ok none

/-- Claim C6: whenever the registry is non-empty (so that a matching call
is issued at all and a response exists), a response with `matchFound`
whose id is absent from the registry makes `FindCounterparty` return the
inconsistency error — neither a "no match" `ok none` nor a fabricated or
merged entry. -/
theorem FindCounterparty_match_inconsistency
    (registry : List Counterparty) (newCounterparty : Counterparty)
    (response : MatchResponse) (hne : registry ≠ [])
    (hfound : response.matchFound = true)
    (habsent : ∀ ex ∈ registry, ex.id ≠ response.matchedId) :
    FindCounterparty registry newCounterparty (.ok response) =
      .error (.inconsistency response.matchedId) := by
  have hlen : ¬registry.length = 0 := by
    simpa [List.length_eq_zero] using hne
  have hfind : registry.find? (fun ex => ex.id = response.matchedId) = none := by
    rw [List.find?_eq_none]
    intro ex hex
    simpa using habsent ex hex
  simp [FindCounterparty, hlen, hfound, hfind]

/-- Witness for `FindCounterparty_match_inconsistency`: a one-entry
registry with id `cp-1` and a response claiming a match with id `cp-9`. -/
theorem FindCounterparty_match_inconsistency_witness :
    ([{ id := "cp-1", name := "Acme" }] : List Counterparty) ≠ [] ∧
      (MatchResponse.mk true "cp-9").matchFound = true ∧
      (∀ ex ∈ ([{ id := "cp-1", name := "Acme" }] : List Counterparty),
        ex.id ≠ (MatchResponse.mk true "cp-9").matchedId) ∧
      FindCounterparty [{ id := "cp-1", name := "Acme" }] {} (.ok ⟨true, "cp-9"⟩) =
        .error (.inconsistency "cp-9") :=
  ⟨by decide, rfl, by decide,
    FindCounterparty_match_inconsistency [{ id := "cp-1", name := "Acme" }] {}
      ⟨true, "cp-9"⟩ (by decide) rfl (by decide)⟩

/-! ### The reporter orchestrator's match-or-register step
(cmd/reporter/main.go, the per-result body of the deduplication loop)

State of the loop after handling one successful result: the registry that
later documents are matched against (`existingForSearch`), the collected
unique counterparties with the file of first sighting
(`uniqueCounterparties`), the counterparty stored into the result's
invoice, whether a WARN line was logged, and whether the document was
aborted (the loop body has no abort path at all; the flag records this). -/

structure MatchStepState where
  registry : List Counterparty
  uniques : List (String × Counterparty)
  counterparty : Counterparty
  warned : Bool
  aborted : Bool
deriving Repr, DecidableEq

/-- One iteration of the reporter's deduplication loop over a successful
result, driven by the outcome of `FindCounterparty`: on error it logs a
warning and registers the extracted counterparty unchanged (the comment
in the source notes the id stays the zero value, which means "new"); on
`some matched` it replaces the invoice's counterparty; on `none` it
registers the extracted counterparty unchanged without a warning. -/
def matchStep (sourceFile : String) (registry : List Counterparty)
    (uniques : List (String × Counterparty)) (extracted : Counterparty)
    (findResult : Except MatchError (Option Counterparty)) : MatchStepState :=
  match findResult with
  | .error _ =>
    ⟨registry ++ [extracted], uniques ++ [(sourceFile, extracted)],
      extracted, true, false⟩
  | .ok (some matched) => ⟨registry, uniques, matched, false, false⟩
  | .ok none =>
    ⟨registry ++ [extracted], uniques ++ [(sourceFile, extracted)],
      extracted, false, false⟩

/-- Composition actually run by the reporter: issue the matching call and
feed its outcome into the loop body. -/
def reporterMatchOrRegister (sourceFile : String) (registry : List Counterparty)
    (uniques : List (String × Counterparty)) (extracted : Counterparty)
    (callResult : Except String MatchResponse) : MatchStepState :=
  matchStep sourceFile registry uniques extracted
    (FindCounterparty registry extracted callResult)

/-- Claim C5 counterexample: when the matching call fails, the reporter
registers the extracted counterparty with its identifier untouched at the
zero value `""` — no fresh identifier is assigned.  Concretely, with one
registered entry and a failing call, the entry appended to the registry
and to the uniques list carries id `""`. -/
theorem matching_failure_zero_id_cex :
    (reporterMatchOrRegister "a.pdf" [{ id := "cp-1", name := "Acme" }] []
        { name := "NewCo" } (.error "transport down")).registry =
      [{ id := "cp-1", name := "Acme" }, { name := "NewCo" }] ∧
      ({ name := "NewCo" } : Counterparty).id = "" ∧
      ∀ u ∈ (reporterMatchOrRegister "a.pdf" [{ id := "cp-1", name := "Acme" }] []
        { name := "NewCo" } (.error "transport down")).uniques, u.2.id = "" := by
  refine ⟨by decide, rfl, by decide⟩

/-- Claim C5 (amended): whenever the matching call fails (transport or
parse error; possible only once the registry is non-empty, since an empty
registry short-circuits without a call), the reporter treats the
extracted counterparty as new — it registers it unchanged in the registry
and the uniques list with its identifier left at the zero value rather
than assigning a fresh one — surfaces a warning, and does not abort the
document. -/
theorem matching_failure_treated_as_new (sourceFile : String)
    (registry : List Counterparty) (uniques : List (String × Counterparty))
    (extracted : Counterparty) (e : String) (hne : registry ≠ []) :
    reporterMatchOrRegister sourceFile registry uniques extracted (.error e) =
      ⟨registry ++ [extracted], uniques ++ [(sourceFile, extracted)],
        extracted, true, false⟩ := by
  have hlen : ¬registry.length = 0 := by
    simpa [List.length_eq_zero] using hne
  simp [reporterMatchOrRegister, FindCounterparty, hlen, matchStep]

/-- Witness for `matching_failure_treated_as_new` at a concrete registry,
extracted counterparty and transport error. -/
theorem matching_failure_treated_as_new_witness :
    ([{ id := "cp-1", name := "Acme" }] : List Counterparty) ≠ [] ∧
      reporterMatchOrRegister "b.pdf" [{ id := "cp-1", name := "Acme" }] []
          { name := "NewCo" } (.error "boom") =
        ⟨[{ id := "cp-1", name := "Acme" }, { name := "NewCo" }],
          [("b.pdf", { name := "NewCo" })], { name := "NewCo" }, true, false⟩ :=
  ⟨by decide,
    matching_failure_treated_as_new "b.pdf" [{ id := "cp-1", name := "Acme" }] []
      { name := "NewCo" } "boom" (by decide)⟩

/-! ### The per-document pipeline (invoice/processor.go, ProcessFile)

`ProcessFile` is embedded from the point where the page images exist:
the extension switch and the renderer are represented by `renderResult`
(their error returns are the `Except.error` case), the grouping call by
`groupingResult`, and `analyzeInvoicePages` — a function of the selected
page images once the client, the prompt and the operator identity are
fixed — by `analyze`.  Page images are an abstract type `α`.  Go slice
indexing panics when the index is out of range; `Option` makes that
explicit with `none` standing for the uncontrolled runtime fault. -/

/-- Go `imageContents[pageIndex]`: `none` is the index-out-of-range panic
(negative or too-large index). -/
def sliceGet (imageContents : List α) (i : Int) : Option α :=
  if h : 0 ≤ i ∧ i.toNat < imageContents.length then
    some (imageContents.get ⟨i.toNat, h.2⟩)
  else none

/-- The inner loop building `imagesToAnalyze` from the selected pages. -/
def lookupPages (imageContents : List α) (pages : List Int) : Option (List α) :=
  pages.mapM (sliceGet imageContents)

/-- What one page group contributes to `finalInvoices`: `none` when the
group is skipped (its analysis failed) or when its page lookup would
panic, `some inv` when analysis succeeds. -/
def groupOutcome (imageContents : List α)
    (analyze : List α → Except String Invoice) (g : String × List Int) :
    Option Invoice :=
  match lookupPages imageContents (selectPagesForAnalysis g.2) with
  | none => none
  | some imagesToAnalyze => (analyze imagesToAnalyze).toOption

/-- The analysis loop of `ProcessFile` over the page groups (association
list standing for the Go map in some iteration order): a failed analysis
is skipped with `continue`, a successful one appends its invoice, and an
out-of-range page lookup aborts everything with a panic (`none`). -/
def analyzeGroups (imageContents : List α)
    (analyze : List α → Except String Invoice) :
    List (String × List Int) → Option (List Invoice)
  | [] => some []
  | (_, pageIndices) :: rest =>
    match lookupPages imageContents (selectPagesForAnalysis pageIndices) with
    | none => none
    | some imagesToAnalyze =>
      match analyzeGroups imageContents analyze rest with
      | none => none
      | some invoices =>
        match analyze imagesToAnalyze with
        | .error _ => some invoices
        | .ok invoice => some (invoice :: invoices)

/-- The synthetic single group built when grouping fails: every page
ordinal of the document in original order, under the sentinel id. -/
def fallbackPageGroups (n : Nat) : List (String × List Int) :=
  [("single_invoice", (List.range n).map Int.ofNat)]

/-- The page groups the analysis loop actually runs on. -/
def effectivePageGroups (n : Nat)
    (groupingResult : Except String (List (String × List Int))) :
    List (String × List Int) :=
  match groupingResult with
  | .error _ => fallbackPageGroups n
  | .ok groups => groups

/-- Shallow embedding of `ProcessFile`.  The outer `Option` is the panic
layer (`none` = uncontrolled fault), the inner `Except` the Go
`([]Invoice, error)` pair. -/
def ProcessFile (renderResult : Except String (List α))
    (groupingResult : Except String (List (String × List Int)))
    (analyze : List α → Except String Invoice) :
    Option (Except String (List Invoice)) :=
  match renderResult with
  | .error e => some (.error e)
  | .ok imageContents =>
    if imageContents.length = 0 then some (.error "no images found to process")
    else
      match analyzeGroups imageContents analyze
          (effectivePageGroups imageContents.length groupingResult) with
      | none => none
      | some finalInvoices => some (.ok finalInvoices)

/-- Elements produced by the dedup fold come from the accumulator or the
folded list. -/
lemma mem_foldl_dedup (u : List Int) : ∀ acc x,
    x ∈ u.foldl (fun acc x => if x ∈ acc then acc else acc ++ [x]) acc →
      x ∈ acc ∨ x ∈ u := by
  induction u with
  | nil => intro acc x hx; exact Or.inl hx
  | cons y u ih =>
    intro acc x hx
    rw [List.foldl_cons] at hx
    rcases ih _ x hx with h | h
    · by_cases hy : y ∈ acc
      · rw [if_pos hy] at h
        exact Or.inl h
      · rw [if_neg hy] at h
        rcases List.mem_append.1 h with h | h
        · exact Or.inl h
        · simp only [List.mem_singleton] at h
          exact Or.inr (h ▸ List.mem_cons_self y u)
    · exact Or.inr (List.mem_cons_of_mem y h)

/-- Every page the selector returns was a page of the group. -/
lemma selectPages_subset (l : List Int) :
    ∀ x ∈ selectPagesForAnalysis l, x ∈ l := by
  intro x hx
  rw [selectPagesForAnalysis, selectPagesForAnalysisFull] at hx
  by_cases h : l.length ≤ 4
  · rw [if_pos h] at hx
    exact hx
  · rw [if_neg h] at hx
    simp only at hx
    rw [List.mem_insertionSort] at hx
    rcases mem_foldl_dedup _ [] x hx with h' | h'
    · cases h'
    · have : x ∈ l.insertionSort (· ≤ ·) := by
        rcases List.mem_append.1 h' with h'' | h''
        · exact List.mem_of_mem_take h''
        · exact List.mem_of_mem_drop h''
      rwa [List.mem_insertionSort] at this

/-- When every requested page is in bounds the image lookup succeeds. -/
lemma lookupPages_eq_some (imageContents : List α) (pages : List Int)
    (hb : ∀ i ∈ pages, 0 ≤ i ∧ i.toNat < imageContents.length) :
    ∃ imagesToAnalyze,
      lookupPages imageContents pages = some imagesToAnalyze := by
  induction pages with
  | nil => exact ⟨[], rfl⟩
  | cons p rest ih =>
    obtain ⟨imgs, himgs⟩ := ih fun i hi => hb i (List.mem_cons_of_mem p hi)
    have hp := hb p (List.mem_cons_self p rest)
    refine ⟨imageContents.get ⟨p.toNat, hp.2⟩ :: imgs, ?_⟩
    rw [lookupPages] at himgs ⊢
    rw [List.mapM_cons, himgs]
    simp [sliceGet, hp]

/-- With all selected pages in bounds, the analysis loop never panics and
collects exactly the successful groups' invoices in order. -/
lemma analyzeGroups_eq_filterMap (imageContents : List α)
    (analyze : List α → Except String Invoice)
    (groups : List (String × List Int))
    (hb : ∀ g ∈ groups, ∀ i ∈ selectPagesForAnalysis g.2,
      0 ≤ i ∧ i.toNat < imageContents.length) :
    analyzeGroups imageContents analyze groups =
      some (groups.filterMap (groupOutcome imageContents analyze)) := by
  induction groups with
  | nil => rfl
  | cons g rest ih =>
    obtain ⟨gid, pageIndices⟩ := g
    obtain ⟨imagesToAnalyze, himgs⟩ :=
      lookupPages_eq_some imageContents
        (selectPagesForAnalysis pageIndices)
        (fun i hi => hb (gid, pageIndices) (List.mem_cons_self _ _) i hi)
    have ihr := ih fun g hg => hb g (List.mem_cons_of_mem _ hg)
    rw [analyzeGroups, himgs, ihr, List.filterMap_cons]
    rw [groupOutcome]
    simp only
    rw [himgs]
    cases hres : analyze imagesToAnalyze <;> simp [Except.toOption, hres]

/-- All pages of the synthetic fallback group are in bounds. -/
lemma fallback_inBounds (n : Nat) :
    ∀ g ∈ fallbackPageGroups n, ∀ i ∈ selectPagesForAnalysis g.2,
      0 ≤ i ∧ i.toNat < n := by
  intro g hg i hi
  rw [fallbackPageGroups, List.mem_singleton] at hg
  subst hg
  have hmem := selectPages_subset _ i hi
  simp only [List.mem_map, List.mem_range] at hmem
  obtain ⟨k, hk, rfl⟩ := hmem
  exact ⟨Int.ofNat_nonneg k, by simpa using hk⟩

/-- Claim C3: when the grouping call fails, `ProcessFile` proceeds with
the single synthetic group `single_invoice` holding exactly the ordinals
`0 .. N-1` in original order, and returns a nil error (never the grouping
failure). -/
theorem ProcessFile_grouping_fallback (imageContents : List α)
    (groupingError : String) (analyze : List α → Except String Invoice)
    (hne : imageContents ≠ []) :
    effectivePageGroups imageContents.length (.error groupingError) =
        [("single_invoice", (List.range imageContents.length).map Int.ofNat)] ∧
      ∃ finalInvoices,
        ProcessFile (.ok imageContents) (.error groupingError) analyze =
          some (.ok finalInvoices) := by
  refine ⟨rfl, ?_⟩
  have hlen : ¬imageContents.length = 0 := by
    simpa [List.length_eq_zero] using hne
  refine ⟨(fallbackPageGroups imageContents.length).filterMap
    (groupOutcome imageContents analyze), ?_⟩
  rw [ProcessFile]
  rw [if_neg hlen]
  rw [show effectivePageGroups imageContents.length (.error groupingError) =
    fallbackPageGroups imageContents.length from rfl]
  rw [analyzeGroups_eq_filterMap imageContents analyze _
    (fallback_inBounds imageContents.length)]

/-- Witness for `ProcessFile_grouping_fallback`: a two-page document whose
grouping call failed and whose detailed analysis always fails too. -/
theorem ProcessFile_grouping_fallback_witness :
    ([10, 20] : List Nat) ≠ [] ∧
      (effectivePageGroups ([10, 20] : List Nat).length (.error "api down") =
          [("single_invoice", (List.range ([10, 20] : List Nat).length).map Int.ofNat)] ∧
        ∃ finalInvoices,
          ProcessFile (.ok ([10, 20] : List Nat)) (.error "api down")
              (fun _ => .error "no answer") =
            some (.ok finalInvoices)) :=
  ⟨by decide,
    ProcessFile_grouping_fallback [10, 20] "api down"
      (fun _ => .error "no answer") (by decide)⟩

/-- Claim C7 failing run: a one-page document whose grouping response
names page ordinal 1.  The loop evaluates `imageContents[1]` on a
one-element slice, which in Go is an uncontrolled index-out-of-range
panic — modelled by the `none` outcome — instead of an error value. -/
theorem ProcessFile_out_of_range_fault :
    ProcessFile (.ok ([7] : List Nat)) (.ok [("inv-x", [1])])
        (fun _ => .ok {}) = none ∧
      sliceGet ([7] : List Nat) 1 = none := by
  refine ⟨rfl, rfl⟩

/-- Claim C8: with every selected page in bounds, one group's analysis
failure does not abort its siblings: `ProcessFile` returns, with a nil
error, exactly the invoices of the groups whose analysis succeeded, every
group being analyzed independently. -/
theorem ProcessFile_per_group_isolation (imageContents : List α)
    (groups : List (String × List Int))
    (analyze : List α → Except String Invoice)
    (hne : imageContents ≠ [])
    (hb : ∀ g ∈ groups, ∀ i ∈ selectPagesForAnalysis g.2,
      0 ≤ i ∧ i.toNat < imageContents.length) :
    ProcessFile (.ok imageContents) (.ok groups) analyze =
      some (.ok (groups.filterMap (groupOutcome imageContents analyze))) := by
  have hlen : ¬imageContents.length = 0 := by
    simpa [List.length_eq_zero] using hne
  rw [ProcessFile]
  rw [if_neg hlen]
  rw [show effectivePageGroups imageContents.length (.ok groups) = groups from rfl]
  rw [analyzeGroups_eq_filterMap imageContents analyze groups hb]

/-- Witness for `ProcessFile_per_group_isolation`: two single-page groups
of a two-page document, the first group's analysis failing, the second
succeeding; the failing sibling is skipped and the second group's invoice
is returned with a nil error. -/
theorem ProcessFile_per_group_isolation_witness :
    ([10, 20] : List Nat) ≠ [] ∧
      (∀ g ∈ [("a", [(0 : Int)]), ("b", [1])], ∀ i ∈ selectPagesForAnalysis g.2,
        0 ≤ i ∧ i.toNat < ([10, 20] : List Nat).length) ∧
      ProcessFile (.ok ([10, 20] : List Nat)) (.ok [("a", [0]), ("b", [1])])
          (fun imgs => if imgs = [10] then .error "bad scan" else .ok {}) =
        some (.ok [{}]) :=
  ⟨by decide, by decide, by
    have h := ProcessFile_per_group_isolation ([10, 20] : List Nat)
      [("a", [0]), ("b", [1])]
      (fun imgs => if imgs = [10] then .error "bad scan" else .ok {})
      (by decide) (by decide)
    rw [h]
    rfl⟩

/-! ### The reporter's per-file result (cmd/reporter/main.go, worker body)

The worker converts the `ProcessFile` outcome into a `Result` row: an
error becomes an error row, a non-empty invoice list contributes its
first invoice, and an empty list becomes the error row
"No invoices found in file".  A panic (`none`) has no row at all: the
unrecovered fault kills the goroutine. -/

structure FileResult where
  sourceFile : String
  invoice : Option Invoice
  errorMessage : String
deriving Repr, DecidableEq

def mkFileResult (sourceFile : String)
    (outcome : Option (Except String (List Invoice))) : Option FileResult :=
  match outcome with
  | none => none
  | some (.error e) => some ⟨sourceFile, none, e⟩
  | some (.ok invoices) =>
    match invoices with
    | invoice :: _ => some ⟨sourceFile, some invoice, ""⟩
    | [] => some ⟨sourceFile, none, "No invoices found in file"⟩

/-- Claim C10: when analysis fails for every page group, `ProcessFile`
returns the empty invoice list with a nil error — indistinguishable from
a document with zero extractable invoices — and it is the orchestrator
that turns the empty list into the per-file error row
"No invoices found in file". -/
theorem ProcessFile_total_extraction_failure (imageContents : List α)
    (groups : List (String × List Int))
    (analyze : List α → Except String Invoice) (sourceFile : String)
    (hne : imageContents ≠ [])
    (hb : ∀ g ∈ groups, ∀ i ∈ selectPagesForAnalysis g.2,
      0 ≤ i ∧ i.toNat < imageContents.length)
    (hfail : ∀ g ∈ groups, groupOutcome imageContents analyze g = none) :
    ProcessFile (.ok imageContents) (.ok groups) analyze = some (.ok []) ∧
      mkFileResult sourceFile
          (ProcessFile (.ok imageContents) (.ok groups) analyze) =
        some ⟨sourceFile, none, "No invoices found in file"⟩ := by
  have hlen : ¬imageContents.length = 0 := by
    simpa [List.length_eq_zero] using hne
  have hmain : ProcessFile (.ok imageContents) (.ok groups) analyze =
      some (.ok []) := by
    rw [ProcessFile]
    rw [if_neg hlen]
    rw [show effectivePageGroups imageContents.length (.ok groups) = groups from rfl]
    rw [analyzeGroups_eq_filterMap imageContents analyze groups hb]
    rw [List.filterMap_eq_nil_iff.2 hfail]
  exact ⟨hmain, by rw [hmain]; rfl⟩

/-- Witness for `ProcessFile_total_extraction_failure`: a two-page
document split into two groups whose analyses both fail; the file-level
outcome is the empty list with nil error and the orchestrator row is the
"No invoices found in file" error. -/
theorem ProcessFile_total_extraction_failure_witness :
    ([10, 20] : List Nat) ≠ [] ∧
      (∀ g ∈ [("a", [(0 : Int)]), ("b", [1])], ∀ i ∈ selectPagesForAnalysis g.2,
        0 ≤ i ∧ i.toNat < ([10, 20] : List Nat).length) ∧
      (∀ g ∈ [("a", [(0 : Int)]), ("b", [1])],
        groupOutcome ([10, 20] : List Nat) (fun _ => .error "unreadable") g = none) ∧
      (ProcessFile (.ok ([10, 20] : List Nat)) (.ok [("a", [0]), ("b", [1])])
            (fun _ => .error "unreadable") = some (.ok []) ∧
        mkFileResult "c.pdf"
            (ProcessFile (.ok ([10, 20] : List Nat)) (.ok [("a", [0]), ("b", [1])])
              (fun _ => .error "unreadable")) =
          some ⟨"c.pdf", none, "No invoices found in file"⟩) :=
  ⟨by decide, by decide, by decide,
    ProcessFile_total_extraction_failure ([10, 20] : List Nat)
      [("a", [0]), ("b", [1])] (fun _ => .error "unreadable") "c.pdf"
      (by decide) (by decide) (by decide)⟩

/-- Claim C9: the selector aliases and mutates its argument.  The
state-passing embedding `selectPagesForAnalysisFull` returns the caller's
slice content next to the returned slice: for more than 4 ordinals the
caller's slice has been sorted ascending in place, and for 4 or fewer
ordinals the returned slice is the argument itself, unchanged. -/
theorem selectPages_frame_effect (pageIndices : List Int) :
    ((selectPagesForAnalysisFull pageIndices).1 =
        if pageIndices.length ≤ 4 then pageIndices
        else pageIndices.insertionSort (· ≤ ·)) ∧
      (4 < pageIndices.length ∨
        (selectPagesForAnalysisFull pageIndices).2 = pageIndices) := by
  by_cases h : pageIndices.length ≤ 4
  · rw [selectPagesForAnalysisFull]
    rw [if_pos h, if_pos h]
    exact ⟨rfl, Or.inr rfl⟩
  · rw [selectPagesForAnalysisFull]
    rw [if_neg h, if_neg h]
    exact ⟨rfl, Or.inl (by omega)⟩

end Invpa
